import Mathlib

/-
  Verification of the built-in-ai-chat-kernel repository.

  The repository is a JupyterLite kernel adapter over Chrome's built-in AI
  prompt capability.  We give a shallow embedding of:
    - ChatSession.send as defined inline in src/kernel.ts (appends each stream
      value directly: delta semantics),
    - ChatSession.send as defined in the standalone ChatSession.ts variant
      (src/unnamed/part_001), which slices each stream value at the previous
      length (cumulative-snapshot semantics),
    - ChatSession.send as defined inline in the federation module
      (src/unnamed/part_002),
    - BuiltInChatKernel.executeRequest and the other protocol handlers of
      src/kernel.ts.

  JavaScript strings are modelled as lists of characters (Str).  The ambient
  capability (the global LanguageModel class) is modelled by an environment
  record carrying the availability answer, the session handle returned by
  LanguageModel.create, and the stream produced by session.promptStreaming.
  A stream is the list of values read before done, plus an optional error
  thrown by reader.read() after those values.  The onChunk callback is a
  function that either returns normally (none) or throws a message (some e).
  Observable effects (onChunk invocations, create calls, lock release,
  published kernel events) are recorded in result records.
-/

namespace BuiltInChatKernelModel

/-- JavaScript strings modelled as character lists. -/
abbrev Str := List Char

/-- Coerce a Lean string literal to the character-list model. -/
def str (s : String) : Str := s.data

/-- Concatenation of a list of strings. -/
def strConcat (l : List Str) : Str := l.flatten

/-- Result of `LanguageModel.availability()` in kernel.ts, federation.ts and
ChatSession.ts. -/
inductive Availability where
  | unavailable
  | available
  | downloadable
  | downloading
deriving DecidableEq

/-- Opaque session handle returned by `LanguageModel.create`. -/
structure Session where
  id : Nat
deriving DecidableEq

/-- Behaviour of one `promptStreaming` stream: the values read before `done`,
then either normal completion (`terminal = none`) or an error thrown by
`reader.read()` (`terminal = some e`). -/
structure StreamSpec where
  chunks : List Str
  terminal : Option String

/-- Ambient capability environment for one call to `send`: whether the global
`LanguageModel` class is defined, what `availability()` answers, what session
`create` returns, and what stream `promptStreaming` yields for a given session
and prompt. -/
structure Env where
  langModelDefined : Bool
  availability : Availability
  created : Session
  stream : Session → Str → StreamSpec

/-- Error message thrown when the LanguageModel global is undefined. -/
def browserUnsupportedMsg : String := "Browser does not support Chrome built-in AI."

/-- Error message thrown when availability() answers unavailable. -/
def modelUnavailableMsg : String := "Chrome built-in AI model is not available."

/-- Stream-consumption loop of kernel.ts ChatSession.send (lines 57-64):
`reply += value; if (onChunk && value) onChunk(value)`.  Returns the outcome
(reply or thrown message) and the list of arguments passed to onChunk.  The
callback `cb` may itself throw (`cb value = some e`). -/
def loopKernel (cb : Str → Option String) :
    List Str → Option String → Str → List Str → Except String Str × List Str
  | [], none, reply, calls => (Except.ok reply, calls)
  | [], some e, _reply, calls => (Except.error e, calls)
  | value :: rest, term, reply, calls =>
    if value = [] then
      loopKernel cb rest term (reply ++ value) calls
    else
      match cb value with
      | some e => (Except.error e, calls ++ [value])
      | none => loopKernel cb rest term (reply ++ value) (calls ++ [value])

/-- Stream-consumption loop of the ChatSession.ts variant (part_001 lines
73-84): `newContent = value.slice(previousLength); previousLength =
value.length; reply = value; if (onChunk && newContent) onChunk(newContent)`. -/
def loopSliced (cb : Str → Option String) :
    List Str → Option String → Str → Nat → List Str → Except String Str × List Str
  | [], none, reply, _prev, calls => (Except.ok reply, calls)
  | [], some e, _reply, _prev, calls => (Except.error e, calls)
  | value :: rest, term, _reply, prev, calls =>
    let newContent := value.drop prev
    if newContent = [] then
      loopSliced cb rest term value value.length calls
    else
      match cb newContent with
      | some e => (Except.error e, calls ++ [newContent])
      | none => loopSliced cb rest term value value.length (calls ++ [newContent])

deriving instance DecidableEq for Except

/-- Observable result of running one stream to its exit: the outcome, the
onChunk invocations, and whether `reader.releaseLock()` ran. -/
structure StreamRun where
  outcome : Except String Str
  calls : List Str
  released : Bool
deriving DecidableEq

/-- The try/finally block of kernel.ts lines 56-67 (identical in the
federation module): the loop runs, and `releaseLock` runs both on normal
completion and when the loop exits with an exception, before the result
is returned or the exception is rethrown. -/
def runStreamKernel (cb : Str → Option String) (spec : StreamSpec) : StreamRun :=
  match loopKernel cb spec.chunks spec.terminal [] [] with
  | (Except.ok reply, calls) => { outcome := Except.ok reply, calls := calls, released := true }
  | (Except.error e, calls) => { outcome := Except.error e, calls := calls, released := true }

/-- The try/finally block of the ChatSession.ts variant (part_001 lines
72-87), around the slicing loop. -/
def runStreamSliced (cb : Str → Option String) (spec : StreamSpec) : StreamRun :=
  match loopSliced cb spec.chunks spec.terminal [] 0 [] with
  | (Except.ok reply, calls) => { outcome := Except.ok reply, calls := calls, released := true }
  | (Except.error e, calls) => { outcome := Except.error e, calls := calls, released := true }

/-- The session a call to send uses once past the availability checks: the
stored handle when one exists, otherwise the one `LanguageModel.create`
returns. -/
def sessionUsed (env : Env) (sess : Option Session) : Session :=
  match sess with
  | some s => s
  | none => env.created

/-- Observable result of one call to ChatSession.send: the outcome (reply or
thrown message), the value of the private session field afterwards, how many
times `LanguageModel.create` was invoked, whether a create call passed a
download-progress monitor, and the arguments passed to onChunk in order. -/
structure SendResult where
  outcome : Except String Str
  sessionAfter : Option Session
  createCalls : Nat
  monitorPassed : Bool
  calls : List Str
deriving DecidableEq

/-- ChatSession.send as defined inline in src/kernel.ts (lines 27-70):
check the LanguageModel global, check availability, lazily create the session
(with a monitor when the model is downloadable or downloading), then consume
the prompt stream with the append loop inside try/finally. -/
def sendKernelTs (env : Env) (sess : Option Session) (prompt : Str)
    (cb : Str → Option String) : SendResult :=
  if env.langModelDefined = false then
    { outcome := Except.error browserUnsupportedMsg, sessionAfter := sess,
      createCalls := 0, monitorPassed := false, calls := [] }
  else if env.availability = Availability.unavailable then
    { outcome := Except.error modelUnavailableMsg, sessionAfter := sess,
      createCalls := 0, monitorPassed := false, calls := [] }
  else
    let acquired : Session × Nat × Bool :=
      match sess with
      | some s => (s, 0, false)
      | none =>
        if env.availability = Availability.downloadable ∨
            env.availability = Availability.downloading then
          (env.created, 1, true)
        else
          (env.created, 1, false)
    let run := runStreamKernel cb (env.stream acquired.1 prompt)
    { outcome := run.outcome, sessionAfter := some acquired.1,
      createCalls := acquired.2.1, monitorPassed := acquired.2.2,
      calls := run.calls }

/-- ChatSession.send as defined in the standalone ChatSession.ts variant
(src/unnamed/part_001 lines 36-90): identical checks and session acquisition,
but the stream loop slices each value at the previous length (cumulative
snapshot handling). -/
def sendChatSessionTs (env : Env) (sess : Option Session) (prompt : Str)
    (cb : Str → Option String) : SendResult :=
  if env.langModelDefined = false then
    { outcome := Except.error browserUnsupportedMsg, sessionAfter := sess,
      createCalls := 0, monitorPassed := false, calls := [] }
  else if env.availability = Availability.unavailable then
    { outcome := Except.error modelUnavailableMsg, sessionAfter := sess,
      createCalls := 0, monitorPassed := false, calls := [] }
  else
    let acquired : Session × Nat × Bool :=
      match sess with
      | some s => (s, 0, false)
      | none =>
        if env.availability = Availability.downloadable ∨
            env.availability = Availability.downloading then
          (env.created, 1, true)
        else
          (env.created, 1, false)
    let run := runStreamSliced cb (env.stream acquired.1 prompt)
    { outcome := run.outcome, sessionAfter := some acquired.1,
      createCalls := acquired.2.1, monitorPassed := acquired.2.2,
      calls := run.calls }

/-- ChatSession.send as defined inline in the federation module
(src/unnamed/part_002 lines 102-156): apart from console logging it repeats
kernel.ts verbatim — same checks, same messages, same session acquisition,
same append loop in try/finally. -/
def sendFederationTs (env : Env) (sess : Option Session) (prompt : Str)
    (cb : Str → Option String) : SendResult :=
  if env.langModelDefined = false then
    { outcome := Except.error browserUnsupportedMsg, sessionAfter := sess,
      createCalls := 0, monitorPassed := false, calls := [] }
  else if env.availability = Availability.unavailable then
    { outcome := Except.error modelUnavailableMsg, sessionAfter := sess,
      createCalls := 0, monitorPassed := false, calls := [] }
  else
    let acquired : Session × Nat × Bool :=
      match sess with
      | some s => (s, 0, false)
      | none =>
        if env.availability = Availability.downloadable ∨
            env.availability = Availability.downloading then
          (env.created, 1, true)
        else
          (env.created, 1, false)
    let run := runStreamKernel cb (env.stream acquired.1 prompt)
    { outcome := run.outcome, sessionAfter := some acquired.1,
      createCalls := acquired.2.1, monitorPassed := acquired.2.2,
      calls := run.calls }

/-- Request content as consumed by the kernel.ts handlers: `content.code`
(absent, null or undefined collapse to `none`) and `content.cursor_pos`. -/
structure Content where
  code : Option Str
  cursor_pos : Option Nat
deriving DecidableEq

/-- Stdout stream event published by executeRequest's onChunk callback:
`this.stream({ name: "stdout", text: chunk }, this.parentHeader)`. -/
structure StdoutEvent where
  name : String
  text : Str
deriving DecidableEq

/-- Error event published by `this.publishExecuteError`. -/
structure ErrorEvent where
  ename : String
  evalue : String
  traceback : List String
deriving DecidableEq

/-- Return value of executeRequest: the ok shape (kernel.ts lines 100-105) or
the error shape (lines 116-122). -/
inductive ExecuteResponse where
  | ok (execution_count : Nat) (payload : List String) (user_expressions : List String)
  | err (execution_count : Nat) (ename : String) (evalue : String) (traceback : List String)
deriving DecidableEq

/-- Observable result of one executeRequest call: published stdout events (in
order), published execute-error events, the returned response, the prompt
forwarded to ChatSession.send, and the chat session field afterwards. -/
structure ExecOutcome where
  stdoutEvents : List StdoutEvent
  errorEvents : List ErrorEvent
  response : ExecuteResponse
  promptSent : Str
  chatAfter : Option Session
deriving DecidableEq

/-- The onChunk callback executeRequest passes to send only republishes the
chunk on the stdout channel; it never throws. -/
def execCb : Str → Option String := fun _ => none

/-- BuiltInChatKernel.executeRequest (kernel.ts lines 89-124): coerce
`content.code ?? ""` to the prompt, call ChatSession.send streaming each chunk
to stdout; on success return the ok shape with the execution counter, on
failure publish one execute-error event and return the error shape with the
same message (the exception is not rethrown). -/
def executeRequest (env : Env) (executionCount : Nat) (chat : Option Session)
    (content : Content) : ExecOutcome :=
  let code := content.code.getD []
  let r := sendKernelTs env chat code execCb
  match r.outcome with
  | Except.ok _reply =>
    { stdoutEvents := r.calls.map (fun c => { name := "stdout", text := c }),
      errorEvents := [],
      response := ExecuteResponse.ok executionCount [] [],
      promptSent := code, chatAfter := r.sessionAfter }
  | Except.error msg =>
    { stdoutEvents := r.calls.map (fun c => { name := "stdout", text := c }),
      errorEvents := [{ ename := "Error", evalue := msg, traceback := [] }],
      response := ExecuteResponse.err executionCount "Error" msg [],
      promptSent := code, chatAfter := r.sessionAfter }

/-- The language_info block of kernelInfoRequest. -/
structure LanguageInfo where
  name : String
  version : String
  mimetype : String
  file_extension : String
deriving DecidableEq

/-- Return shape of kernelInfoRequest. -/
structure KernelInfoResponse where
  status : String
  protocol_version : String
  implementation : String
  implementation_version : String
  language_info : LanguageInfo
  banner : String
  help_links : List String
deriving DecidableEq

/-- BuiltInChatKernel.kernelInfoRequest (kernel.ts lines 126-141); the source
method takes no content argument. -/
def kernelInfoRequest : KernelInfoResponse :=
  { status := "ok", protocol_version := "5.3",
    implementation := "built-in-chat-kernel",
    implementation_version := "0.2.6dev6",
    language_info :=
      { name := "markdown", version := "0.0.0", mimetype := "text/markdown",
        file_extension := ".md" },
    banner := "Chrome Built-in AI chat kernel", help_links := [] }

/-- Return shape of completeRequest. -/
structure CompleteResponse where
  status : String
  «matches» : List String
  cursor_start : Nat
  cursor_end : Nat
  metadata : List (String × String)
deriving DecidableEq

/-- BuiltInChatKernel.completeRequest (kernel.ts lines 143-151): echoes
`content.cursor_pos ?? 0` into cursor_start and cursor_end. -/
def completeRequest (content : Content) : CompleteResponse :=
  { status := "ok", «matches» := [],
    cursor_start := content.cursor_pos.getD 0,
    cursor_end := content.cursor_pos.getD 0,
    metadata := [] }

/-- Return shape of inspectRequest. -/
structure InspectResponse where
  status : String
  found : Bool
  data : List (String × String)
  metadata : List (String × String)
deriving DecidableEq

/-- BuiltInChatKernel.inspectRequest (kernel.ts lines 153-160). -/
def inspectRequest (_content : Content) : InspectResponse :=
  { status := "ok", found := false, data := [], metadata := [] }

/-- Return shape of isCompleteRequest. -/
structure IsCompleteResponse where
  status : String
  indent : String
deriving DecidableEq

/-- BuiltInChatKernel.isCompleteRequest (kernel.ts lines 162-167). -/
def isCompleteRequest (_content : Content) : IsCompleteResponse :=
  { status := "complete", indent := "" }

/-- Return shape of commInfoRequest. -/
structure CommInfoResponse where
  status : String
  comms : List (String × String)
deriving DecidableEq

/-- BuiltInChatKernel.commInfoRequest (kernel.ts lines 169-174). -/
def commInfoRequest (_content : Content) : CommInfoResponse :=
  { status := "ok", comms := [] }

/-- Return shape of historyRequest. -/
structure HistoryResponse where
  status : String
  history : List String
deriving DecidableEq

/-- BuiltInChatKernel.historyRequest (kernel.ts lines 176-181). -/
def historyRequest (_content : Content) : HistoryResponse :=
  { status := "ok", history := [] }

/-- Return shape of shutdownRequest. -/
structure ShutdownResponse where
  status : String
  restart : Bool
deriving DecidableEq

/-- BuiltInChatKernel.shutdownRequest (kernel.ts lines 183-188). -/
def shutdownRequest (_content : Content) : ShutdownResponse :=
  { status := "ok", restart := false }

/-- Boolean success test on a send outcome. -/
def outcomeIsOk (e : Except String Str) : Bool :=
  match e with
  | Except.ok _ => true
  | Except.error _ => false

/-- A string extends another when the latter is its initial segment; used to
state the cumulative-snapshot convention. -/
def extendsStr (a b : Str) : Bool := decide (b.take a.length = a)

/-- The cumulative-snapshot convention for a stream: starting from the text
produced so far, every value is an initial-segment extension of the previous
value (each read returns the full reply so far). -/
def cumulativeFrom : Str → List Str → Bool
  | _, [] => true
  | prev, c :: cs => extendsStr prev c && cumulativeFrom c cs

/-- Characterization of the kernel.ts append loop under a non-throwing
callback: it accumulates the concatenation of all values read, invokes the
callback exactly on the non-empty values in order, and fails exactly when the
reader's terminal action throws. -/
lemma loopKernel_spec (cb : Str → Option String) (hcb : ∀ c, cb c = none)
    (chunks : List Str) :
    ∀ (term : Option String) (reply : Str) (calls : List Str),
      loopKernel cb chunks term reply calls =
        ((match term with
          | none => Except.ok (reply ++ strConcat chunks)
          | some e => Except.error e),
         calls ++ chunks.filter (fun c => c ≠ [])) := by
  induction chunks with
  | nil =>
    intro term reply calls
    cases term <;> simp [loopKernel, strConcat]
  | cons value rest ih =>
    intro term reply calls
    by_cases hv : value = []
    · subst hv
      simp [loopKernel, ih, strConcat]
    · simp only [loopKernel, if_neg hv, hcb value]
      rw [ih]
      cases term <;>
        simp [strConcat, List.filter_cons, hv, List.append_assoc]

/-- Invariant of the slicing loop of the ChatSession.ts variant under a
non-throwing callback, for a stream obeying the cumulative-snapshot
convention: starting from a reply whose length is the stored previous length
and whose text equals the concatenation of the callback calls so far, the
loop ends with the last snapshot as reply, and the concatenation of all
callback calls equals that reply. -/
lemma loopSliced_cumulative (cb : Str → Option String) (hcb : ∀ c, cb c = none)
    (chunks : List Str) :
    ∀ (reply : Str) (calls : List Str),
      cumulativeFrom reply chunks = true →
      strConcat calls = reply →
      ∃ calls2,
        loopSliced cb chunks none reply reply.length calls =
          (Except.ok (chunks.getLastD reply), calls2) ∧
        strConcat calls2 = chunks.getLastD reply := by
  induction chunks with
  | nil =>
    intro reply calls _ hcalls
    exact ⟨calls, by simp [loopSliced], by simpa using hcalls⟩
  | cons c cs ih =>
    intro reply calls hcum hcalls
    have hcum' : extendsStr reply c = true ∧ cumulativeFrom c cs = true := by
      simpa [cumulativeFrom, Bool.and_eq_true] using hcum
    have htake : c.take reply.length = reply := by
      have := hcum'.1
      simpa [extendsStr] using this
    have hsplit : reply ++ c.drop reply.length = c := by
      conv_rhs => rw [← List.take_append_drop reply.length c]
      rw [htake]
    by_cases hnc : c.drop reply.length = []
    · have hceq : c = reply := by
        rw [← hsplit, hnc, List.append_nil]
      have step :
          loopSliced cb (c :: cs) none reply reply.length calls =
            loopSliced cb cs none c c.length calls := by
        simp [loopSliced, hnc]
      rw [step]
      have hcalls' : strConcat calls = c := by rw [hcalls, hceq]
      obtain ⟨calls2, h1, h2⟩ := ih c calls hcum'.2 hcalls'
      rw [List.getLastD_cons]
      exact ⟨calls2, h1, h2⟩
    · have step :
          loopSliced cb (c :: cs) none reply reply.length calls =
            loopSliced cb cs none c c.length (calls ++ [c.drop reply.length]) := by
        simp [loopSliced, hnc, hcb]
      rw [step]
      have hcalls' : strConcat (calls ++ [c.drop reply.length]) = c := by
        simp [strConcat, List.flatten_append, List.flatten] at *
        rw [hcalls]
        exact hsplit
      obtain ⟨calls2, h1, h2⟩ := ih c (calls ++ [c.drop reply.length]) hcum'.2 hcalls'
      rw [List.getLastD_cons]
      exact ⟨calls2, h1, h2⟩

/-- Run-level description of the kernel.ts try/finally block under a
non-throwing callback: the outcome follows the stream's terminal action and
the callback receives exactly the non-empty values in order. -/
lemma runStreamKernel_spec (cb : Str → Option String) (hcb : ∀ c, cb c = none)
    (spec : StreamSpec) :
    runStreamKernel cb spec =
      { outcome :=
          (match spec.terminal with
           | none => Except.ok (strConcat spec.chunks)
           | some e => Except.error e),
        calls := spec.chunks.filter (fun c => c ≠ []), released := true } := by
  unfold runStreamKernel
  rw [loopKernel_spec cb hcb]
  cases h : spec.terminal <;> simp [h]

/-- Dropping the empty strings from a list does not change its
concatenation. -/
lemma strConcat_filter_ne_nil (l : List Str) :
    strConcat (l.filter (fun c => c ≠ [])) = strConcat l := by
  induction l with
  | nil => rfl
  | cons c cs ih =>
    by_cases hc : c = [] <;> simp [List.filter_cons, hc, strConcat, ih] <;>
      simpa [strConcat] using ih

/-- Once past the availability checks, kernel.ts send streams from the stored
session (or the freshly created one), its outcome and callback trace are those
of the stream run, and afterwards the session field holds that session. -/
lemma sendKernelTs_run (env : Env) (sess : Option Session) (prompt : Str)
    (cb : Str → Option String) (hdef : env.langModelDefined = true)
    (hav : env.availability ≠ Availability.unavailable) :
    (sendKernelTs env sess prompt cb).outcome =
      (runStreamKernel cb (env.stream (sessionUsed env sess) prompt)).outcome ∧
    (sendKernelTs env sess prompt cb).calls =
      (runStreamKernel cb (env.stream (sessionUsed env sess) prompt)).calls ∧
    (sendKernelTs env sess prompt cb).sessionAfter =
      some (sessionUsed env sess) := by
  cases sess with
  | some s => simp [sendKernelTs, hdef, hav, sessionUsed]
  | none =>
    by_cases h3 : env.availability = Availability.downloadable ∨
        env.availability = Availability.downloading
    · simp [sendKernelTs, hdef, hav, sessionUsed, h3]
    · simp [sendKernelTs, hdef, hav, sessionUsed, h3]

/-- The same run-level description for the ChatSession.ts variant, whose loop
is the slicing one. -/
lemma sendChatSessionTs_run (env : Env) (sess : Option Session) (prompt : Str)
    (cb : Str → Option String) (hdef : env.langModelDefined = true)
    (hav : env.availability ≠ Availability.unavailable) :
    (sendChatSessionTs env sess prompt cb).outcome =
      (runStreamSliced cb (env.stream (sessionUsed env sess) prompt)).outcome ∧
    (sendChatSessionTs env sess prompt cb).calls =
      (runStreamSliced cb (env.stream (sessionUsed env sess) prompt)).calls ∧
    (sendChatSessionTs env sess prompt cb).sessionAfter =
      some (sessionUsed env sess) := by
  cases sess with
  | some s => simp [sendChatSessionTs, hdef, hav, sessionUsed]
  | none =>
    by_cases h3 : env.availability = Availability.downloadable ∨
        env.availability = Availability.downloading
    · simp [sendChatSessionTs, hdef, hav, sessionUsed, h3]
    · simp [sendChatSessionTs, hdef, hav, sessionUsed, h3]

/-- Run-level description of the slicing try/finally block on a normally
terminating cumulative stream: the loop returns the last snapshot and the
callback trace concatenates to exactly that snapshot. -/
lemma runStreamSliced_cumulative (cb : Str → Option String)
    (hcb : ∀ c, cb c = none) (spec : StreamSpec)
    (hterm : spec.terminal = none)
    (hcum : cumulativeFrom [] spec.chunks = true) :
    (runStreamSliced cb spec).outcome =
      Except.ok (spec.chunks.getLastD []) ∧
    strConcat (runStreamSliced cb spec).calls = spec.chunks.getLastD [] := by
  obtain ⟨calls2, hl, hc2⟩ :=
    loopSliced_cumulative cb hcb spec.chunks [] [] hcum rfl
  have hl' : loopSliced cb spec.chunks none [] 0 [] =
      (Except.ok (spec.chunks.getLastD []), calls2) := by
    simpa using hl
  have hrun : runStreamSliced cb spec =
      { outcome := Except.ok (spec.chunks.getLastD []), calls := calls2,
        released := true } := by
    unfold runStreamSliced
    rw [hterm, hl']
  rw [hrun]
  exact ⟨rfl, hc2⟩

/-- Environment in which the capability is present and available and every
prompt streams the two true deltas "ab" then "cd". -/
def envDelta : Env :=
  { langModelDefined := true, availability := Availability.available,
    created := ⟨0⟩, stream := fun _ _ => ⟨[str "ab", str "cd"], none⟩ }

/-- Environment in which the capability is present and available and every
prompt streams the single value "ok". -/
def envOk : Env :=
  { langModelDefined := true, availability := Availability.available,
    created := ⟨0⟩, stream := fun _ _ => ⟨[str "ok"], none⟩ }

/-- Environment in which the capability is present but availability() answers
unavailable. -/
def envUnavailable : Env :=
  { langModelDefined := true, availability := Availability.unavailable,
    created := ⟨0⟩, stream := fun _ _ => ⟨[], none⟩ }

/-- Environment in which the capability is present and available and every
stream completes after zero values. -/
def envEmpty : Env :=
  { langModelDefined := true, availability := Availability.available,
    created := ⟨0⟩, stream := fun _ _ => ⟨[], none⟩ }

/-- C1 fails as stated: for the ChatSession.ts variant of send (part_001),
which slices each value at the previous length, a stream of true incremental
deltas "ab", "cd" makes send succeed returning "cd" while the only onChunk
argument is "ab", so the concatenation of onChunk arguments differs from the
returned string. -/
theorem claim_C1_counterexample :
    (sendChatSessionTs envDelta none (str "hi") execCb).outcome =
      Except.ok (str "cd") ∧
    strConcat (sendChatSessionTs envDelta none (str "hi") execCb).calls =
      str "ab" ∧
    str "ab" ≠ str "cd" := by
  decide

/-- C1 (amended): for every successful call with a non-throwing onChunk on a
normally terminating stream, the kernel.ts send returns exactly the
concatenation of the strings passed to onChunk, whatever the stream yields
(it treats every value as a delta); the slicing send of the ChatSession.ts
variant satisfies the same equation whenever the stream follows the
cumulative-snapshot convention. -/
theorem claim_C1_amended (env : Env) (sess : Option Session) (prompt : Str)
    (cb : Str → Option String) (hcb : ∀ c, cb c = none)
    (hdef : env.langModelDefined = true)
    (hav : env.availability ≠ Availability.unavailable)
    (hterm : (env.stream (sessionUsed env sess) prompt).terminal = none) :
    (sendKernelTs env sess prompt cb).outcome =
      Except.ok (strConcat (sendKernelTs env sess prompt cb).calls) ∧
    (cumulativeFrom [] (env.stream (sessionUsed env sess) prompt).chunks = true →
      (sendChatSessionTs env sess prompt cb).outcome =
        Except.ok (strConcat (sendChatSessionTs env sess prompt cb).calls)) := by
  constructor
  · obtain ⟨ho, hc, -⟩ := sendKernelTs_run env sess prompt cb hdef hav
    rw [ho, hc, runStreamKernel_spec cb hcb, hterm]
    exact congrArg Except.ok (strConcat_filter_ne_nil _).symm
  · intro hcum
    obtain ⟨ho, hc, -⟩ := sendChatSessionTs_run env sess prompt cb hdef hav
    obtain ⟨ho2, hc2⟩ :=
      runStreamSliced_cumulative cb hcb
        (env.stream (sessionUsed env sess) prompt) hterm hcum
    rw [ho, hc, ho2, hc2]

/-- Witness for the amended C1 at a concrete cumulative stream: both sends
return the concatenation of their onChunk arguments. -/
theorem claim_C1_amended_witness :
    (sendKernelTs envOk none (str "q") execCb).outcome =
      Except.ok (strConcat (sendKernelTs envOk none (str "q") execCb).calls) ∧
    (sendChatSessionTs envOk none (str "q") execCb).outcome =
      Except.ok (strConcat (sendChatSessionTs envOk none (str "q") execCb).calls) := by
  have h := claim_C1_amended envOk none (str "q") execCb (fun _ => rfl) rfl
    (by decide) rfl
  exact ⟨h.1, h.2 (by decide)⟩

/-- C2: starting from a fresh ChatSession (session field null), if the first
send succeeds then across two sequential sends LanguageModel.create runs
exactly once, and the second call leaves the session handle stored by the
first in place. -/
theorem claim_C2_create_once (env₁ env₂ : Env) (p₁ p₂ : Str)
    (cb₁ cb₂ : Str → Option String)
    (hok : outcomeIsOk (sendKernelTs env₁ none p₁ cb₁).outcome = true) :
    (sendKernelTs env₁ none p₁ cb₁).createCalls +
      (sendKernelTs env₂ (sendKernelTs env₁ none p₁ cb₁).sessionAfter p₂ cb₂).createCalls = 1 ∧
    (sendKernelTs env₂ (sendKernelTs env₁ none p₁ cb₁).sessionAfter p₂ cb₂).sessionAfter =
      (sendKernelTs env₁ none p₁ cb₁).sessionAfter := by
  by_cases h1 : env₁.langModelDefined = false
  · exfalso
    simp [sendKernelTs, h1, outcomeIsOk] at hok
  by_cases h2 : env₁.availability = Availability.unavailable
  · exfalso
    simp [sendKernelTs, h1, h2, outcomeIsOk] at hok
  have hr1 : (sendKernelTs env₁ none p₁ cb₁).createCalls = 1 ∧
      (sendKernelTs env₁ none p₁ cb₁).sessionAfter = some env₁.created := by
    by_cases h3 : env₁.availability = Availability.downloadable ∨
        env₁.availability = Availability.downloading
    · simp [sendKernelTs, h1, h2, h3]
    · simp [sendKernelTs, h1, h2, h3]
  have hr2 : ∀ (env : Env) (s : Session) (p : Str) (cb : Str → Option String),
      (sendKernelTs env (some s) p cb).createCalls = 0 ∧
      (sendKernelTs env (some s) p cb).sessionAfter = some s := by
    intro env s p cb
    by_cases hd : env.langModelDefined = false
    · simp [sendKernelTs, hd]
    · by_cases ha : env.availability = Availability.unavailable
      · simp [sendKernelTs, hd, ha]
      · simp [sendKernelTs, hd, ha]
  rw [hr1.1, hr1.2, (hr2 env₂ env₁.created p₂ cb₂).1,
    (hr2 env₂ env₁.created p₂ cb₂).2]
  exact ⟨rfl, rfl⟩

/-- Witness for C2 at a concrete available environment. -/
theorem claim_C2_witness :
    (sendKernelTs envOk none (str "a") execCb).createCalls +
      (sendKernelTs envOk (sendKernelTs envOk none (str "a") execCb).sessionAfter
        (str "b") execCb).createCalls = 1 ∧
    (sendKernelTs envOk (sendKernelTs envOk none (str "a") execCb).sessionAfter
        (str "b") execCb).sessionAfter =
      (sendKernelTs envOk none (str "a") execCb).sessionAfter :=
  claim_C2_create_once envOk envOk (str "a") (str "b") execCb execCb (by decide)

/-- C3: when the capability is absent or reports unavailable, a send on a
fresh session throws (the browser-unsupported message in the first case, the
model-unavailable message otherwise), the session field stays null, and no
create call is made. -/
theorem claim_C3_unavailable_no_session (env : Env) (prompt : Str)
    (cb : Str → Option String)
    (h : env.langModelDefined = false ∨
      env.availability = Availability.unavailable) :
    (sendKernelTs env none prompt cb).outcome =
      Except.error
        (if env.langModelDefined = false then browserUnsupportedMsg
         else modelUnavailableMsg) ∧
    (sendKernelTs env none prompt cb).sessionAfter = none ∧
    (sendKernelTs env none prompt cb).createCalls = 0 := by
  rcases h with h | h
  · simp [sendKernelTs, h]
  · by_cases hd : env.langModelDefined = false
    · simp [sendKernelTs, hd]
    · simp [sendKernelTs, hd, h]

/-- Witness for C3 at a concrete unavailable environment. -/
theorem claim_C3_witness :
    (sendKernelTs envUnavailable none [] execCb).outcome =
      Except.error modelUnavailableMsg ∧
    (sendKernelTs envUnavailable none [] execCb).sessionAfter = none ∧
    (sendKernelTs envUnavailable none [] execCb).createCalls = 0 := by
  have h :=
    claim_C3_unavailable_no_session envUnavailable [] execCb (Or.inr rfl)
  simpa [envUnavailable] using h

/-- C4: whenever the underlying ChatSession.send throws, executeRequest
publishes exactly one execute-error event with ename "Error", evalue equal to
the thrown message and empty traceback, and returns (rather than rethrows) the
error response carrying the same message and empty traceback. -/
theorem claim_C4_error_response (env : Env) (n : Nat) (chat : Option Session)
    (content : Content) (msg : String)
    (hfail : (sendKernelTs env chat (content.code.getD []) execCb).outcome =
      Except.error msg) :
    (executeRequest env n chat content).errorEvents =
      [{ ename := "Error", evalue := msg, traceback := [] }] ∧
    (executeRequest env n chat content).response =
      ExecuteResponse.err n "Error" msg [] := by
  simp only [executeRequest, hfail]
  simp

/-- Witness for C4 at a concrete unavailable environment. -/
theorem claim_C4_witness :
    (executeRequest envUnavailable 2 none ⟨some (str "x"), none⟩).errorEvents =
      [{ ename := "Error", evalue := modelUnavailableMsg, traceback := [] }] ∧
    (executeRequest envUnavailable 2 none ⟨some (str "x"), none⟩).response =
      ExecuteResponse.err 2 "Error" modelUnavailableMsg [] :=
  claim_C4_error_response envUnavailable 2 none ⟨some (str "x"), none⟩
    modelUnavailableMsg (by decide)

/-- C5: whenever ChatSession.send succeeds, executeRequest publishes one
stdout event per non-empty stream delta in production order, publishes no
error event, and returns the ok response whose execution_count is the
host-supplied counter. -/
theorem claim_C5_ok_response (env : Env) (n : Nat) (chat : Option Session)
    (content : Content) (hdef : env.langModelDefined = true)
    (hav : env.availability ≠ Availability.unavailable)
    (hterm : (env.stream (sessionUsed env chat) (content.code.getD [])).terminal =
      none) :
    (executeRequest env n chat content).stdoutEvents =
      ((env.stream (sessionUsed env chat) (content.code.getD [])).chunks.filter
        (fun c => c ≠ [])).map (fun c => { name := "stdout", text := c }) ∧
    (executeRequest env n chat content).response =
      ExecuteResponse.ok n [] [] ∧
    (executeRequest env n chat content).errorEvents = [] := by
  obtain ⟨ho, hc, -⟩ :=
    sendKernelTs_run env chat (content.code.getD []) execCb hdef hav
  rw [runStreamKernel_spec execCb (fun _ => rfl), hterm] at ho hc
  simp only [executeRequest, ho, hc]
  simp

/-- Witness for C5: in an available environment streaming "ab" then "cd", the
request publishes the two stdout events in order and returns ok with the
supplied counter. -/
theorem claim_C5_witness :
    (executeRequest envDelta 3 none ⟨some (str "hi"), none⟩).stdoutEvents =
      [{ name := "stdout", text := str "ab" },
       { name := "stdout", text := str "cd" }] ∧
    (executeRequest envDelta 3 none ⟨some (str "hi"), none⟩).response =
      ExecuteResponse.ok 3 [] [] ∧
    (executeRequest envDelta 3 none ⟨some (str "hi"), none⟩).errorEvents = [] := by
  have h := claim_C5_ok_response envDelta 3 none ⟨some (str "hi"), none⟩
    rfl (by decide) rfl
  simpa [envDelta, str] using h

/-- C6 fails as stated: completeRequest is not a constant function of the
request content, since it echoes cursor_pos into cursor_start and
cursor_end. -/
theorem claim_C6_counterexample :
    completeRequest { code := none, cursor_pos := some 1 } ≠
      completeRequest { code := none, cursor_pos := some 0 } := by
  decide

/-- C6 (amended): kernelInfoRequest, inspectRequest, isCompleteRequest,
commInfoRequest, historyRequest and shutdownRequest return fixed literal
responses independent of the request content; completeRequest returns the
fixed shape except that cursor_start and cursor_end echo the request's
cursor_pos (defaulting to 0). -/
theorem claim_C6_amended :
    kernelInfoRequest =
      { status := "ok", protocol_version := "5.3",
        implementation := "built-in-chat-kernel",
        implementation_version := "0.2.6dev6",
        language_info :=
          { name := "markdown", version := "0.0.0",
            mimetype := "text/markdown", file_extension := ".md" },
        banner := "Chrome Built-in AI chat kernel", help_links := [] } ∧
    (∀ c : Content,
      inspectRequest c =
        { status := "ok", found := false, data := [], metadata := [] }) ∧
    (∀ c : Content, isCompleteRequest c = { status := "complete", indent := "" }) ∧
    (∀ c : Content, commInfoRequest c = { status := "ok", comms := [] }) ∧
    (∀ c : Content, historyRequest c = { status := "ok", history := [] }) ∧
    (∀ c : Content, shutdownRequest c = { status := "ok", restart := false }) ∧
    (∀ c : Content,
      completeRequest c =
        { status := "ok", «matches» := [],
          cursor_start := c.cursor_pos.getD 0,
          cursor_end := c.cursor_pos.getD 0, metadata := [] }) :=
  ⟨rfl, fun _ => rfl, fun _ => rfl, fun _ => rfl, fun _ => rfl, fun _ => rfl,
    fun _ => rfl⟩

/-- C7: a stream that completes after zero values makes send return the empty
string with zero onChunk invocations and no error. -/
theorem claim_C7_empty_stream (env : Env) (sess : Option Session) (prompt : Str)
    (cb : Str → Option String) (hdef : env.langModelDefined = true)
    (hav : env.availability ≠ Availability.unavailable)
    (hstream : env.stream (sessionUsed env sess) prompt = ⟨[], none⟩) :
    (sendKernelTs env sess prompt cb).outcome = Except.ok [] ∧
    (sendKernelTs env sess prompt cb).calls = [] := by
  obtain ⟨ho, hc, -⟩ := sendKernelTs_run env sess prompt cb hdef hav
  rw [ho, hc, hstream]
  exact ⟨rfl, rfl⟩

/-- Witness for C7 at a concrete environment whose streams are empty. -/
theorem claim_C7_witness :
    (sendKernelTs envEmpty none [] execCb).outcome = Except.ok [] ∧
    (sendKernelTs envEmpty none [] execCb).calls = [] :=
  claim_C7_empty_stream envEmpty none [] execCb rfl (by decide) rfl

/-- C8: in both try/finally blocks around stream consumption (kernel.ts and
the ChatSession.ts variant), the reader's releaseLock runs on every exit
path — normal completion, an error thrown by reader.read(), or an error
thrown by the onChunk callback — before the result is returned or the
exception rethrown. -/
theorem claim_C8_release_lock :
    ∀ (cb : Str → Option String) (spec : StreamSpec),
      (runStreamKernel cb spec).released = true ∧
      (runStreamSliced cb spec).released = true := by
  intro cb spec
  constructor
  · unfold runStreamKernel
    cases h : loopKernel cb spec.chunks spec.terminal [] [] with
    | mk out calls => cases out <;> simp
  · unfold runStreamSliced
    cases h : loopSliced cb spec.chunks spec.terminal [] 0 [] with
    | mk out calls => cases out <;> simp

/-- C9: the send inline in kernel.ts and the send inline in the federation
module are behaviourally equal: same environment, same stored session, same
prompt and same callback give identical outcomes, session fields, create
counts and onChunk traces. -/
theorem claim_C9_send_equivalence :
    ∀ (env : Env) (sess : Option Session) (prompt : Str)
      (cb : Str → Option String),
      sendKernelTs env sess prompt cb = sendFederationTs env sess prompt cb :=
  fun _ _ _ _ => rfl

/-- C10: a request content without a code field is coerced to the empty
prompt: the whole observable outcome equals that of an explicit empty-string
code, and the prompt forwarded to ChatSession.send is empty. -/
theorem claim_C10_missing_code (env : Env) (n : Nat) (chat : Option Session)
    (content : Content) (hcode : content.code = none) :
    executeRequest env n chat content =
      executeRequest env n chat { content with code := some [] } ∧
    (executeRequest env n chat content).promptSent = [] := by
  constructor
  · simp [executeRequest, hcode]
  · cases h : (sendKernelTs env chat [] execCb).outcome <;>
      simp [executeRequest, hcode, h]

/-- Witness for C10 at a concrete content lacking code. -/
theorem claim_C10_witness :
    executeRequest envOk 1 none ⟨none, some 2⟩ =
      executeRequest envOk 1 none ⟨some [], some 2⟩ ∧
    (executeRequest envOk 1 none ⟨none, some 2⟩).promptSent = [] :=
  claim_C10_missing_code envOk 1 none ⟨none, some 2⟩ rfl

end BuiltInChatKernelModel
